import Mathlib

/-!
Verification of the market-intel-bot event lifecycle tracker.

The source is a single-threaded poll loop (src/main.py `run_bot`) that
watches a cached economic calendar, classifies each event into due
lifecycle phases (pre-alert / post-analysis), deduplicates actions via a
persisted ledger file, enriches post-release events through an external
analyzer (src/gemini_analyzer.py `analyze_event`) and dispatches
notifications.  Times are modelled as UTC epoch seconds (`Int`); an
absent or JSON-null field is `Option.none`.
-/

namespace MarketIntelBot

/-- One calendar entry as consumed by main.py.  `date` is the event's
scheduled UTC time in epoch seconds (the source parses the provider's ISO
string; identity uses the same timestamp).  `actual`, `estimate` and
`previous` are `none` when the JSON field is absent or null. -/
structure Event where
  eventName : String
  country : String
  impact : String
  date : Int
  actual : Option Int
  estimate : Option Int
  previous : Option Int
  deriving DecidableEq, Repr

/-- main.py line 13. -/
def IMPACT_FILTER : List String := ["low", "medium", "high"]

/-- main.py line 14. -/
def COUNTRY_FILTER : List String := ["US", "EZ", "CN", "GB", "JP", "DE", "FR", "AU", "CH", "IN"]

/-- main.py line 15. -/
def PRE_ALERT_MINUTES : Int := 5

/-- Seconds in `m` minutes (the source compares `timedelta` values). -/
def minutes (m : Int) : Int := 60 * m

/-- main.py line 110: an event is skipped unless its impact and country
pass both filters. -/
def passesFilters (e : Event) : Bool :=
  IMPACT_FILTER.contains e.impact && COUNTRY_FILTER.contains e.country

/-- main.py line 120: the pre-alert guard
`0 < time_to_event <= PRE_ALERT_MINUTES` with `time_to_event = date - now`. -/
def preWindow (now : Int) (e : Event) : Bool :=
  decide (0 < e.date - now) && decide (e.date - now ≤ minutes PRE_ALERT_MINUTES)

/-- main.py line 133: the post-analysis time guard
`0 <= time_since_release < 3 minutes` with `time_since_release = now - date`. -/
def postWindow (now : Int) (e : Event) : Bool :=
  decide (0 ≤ now - e.date) && decide (now - e.date < minutes 3)

/-- main.py line 91: the burst-mode guard
`-PRE_ALERT_MINUTES <= time_to_event <= 3 minutes`. -/
def inActiveWindow (now : Int) (e : Event) : Bool :=
  decide (-(minutes PRE_ALERT_MINUTES) ≤ e.date - now) && decide (e.date - now ≤ minutes 3)

/-- main.py lines 83-93: `is_active_window` is set when any event of the
saved schedule satisfies `inActiveWindow`. -/
def is_active_window (now : Int) (schedule : List Event) : Bool :=
  schedule.any (inActiveWindow now)

/-- The spec's active window, stated from the spec's own words for
comparison with the code's guard: `[-PRE_ALERT_MINUTES,
+POST_ANALYSIS_MINUTES]` relative to scheduled time, i.e. now is between
5 minutes before and 3 minutes after the scheduled instant. -/
def specActiveWindow (now : Int) (e : Event) : Bool :=
  decide (-(minutes PRE_ALERT_MINUTES) ≤ now - e.date) && decide (now - e.date ≤ minutes 3)

/-- main.py line 114: `event_id = f"{eventName}-{country}-{date}"`. -/
def event_id (e : Event) : String :=
  e.eventName ++ "-" ++ e.country ++ "-" ++ toString e.date

/-- main.py line 115. -/
def pre_alert_id (e : Event) : String := "pre-" ++ event_id e

/-- main.py line 116. -/
def post_analysis_id (e : Event) : String := "post-" ++ event_id e

/-- main.py lines 38-41: load the persisted list, view it as a set, add
the id, write the whole set back.  Python's set order is unobservable, so
set-insert is modelled by `List.insert`; membership is the only fact the
source ever reads. -/
def save_processed_event (stateFile : List String) (eid : String) : List String :=
  stateFile.insert eid

/-- One JSON field value inside the parsed enrichment object. -/
inductive JsonVal where
  | str (s : String)
  | num (n : Int)
  | null
  deriving DecidableEq, Repr

/-- A parsed JSON object (what `json.loads` returns for an object
response), as a key/value list. -/
abbrev AnalysisObj := List (String × JsonVal)

/-- gemini_analyzer.py lines 12-53: `analyze_event` returns an error
object when the API key is missing or the request/parse raises, and
otherwise returns whatever object the response parsed to, with no shape
validation.  The external call and parse are modelled by `outcome`. -/
def analyze_event (keyConfigured : Bool) (outcome : Except String AnalysisObj) : AnalysisObj :=
  if !keyConfigured then [("error", JsonVal.str "Gemini API key not configured.")]
  else
    match outcome with
    | Except.error msg => [("error", JsonVal.str msg)]
    | Except.ok obj => obj

/-- main.py line 146: `if analysis and "error" not in analysis` — for a
parsed object this is "non-empty and has no error key". -/
def acceptsAnalysis (a : AnalysisObj) : Bool :=
  !a.isEmpty && !(a.any fun p => p.1 == "error")

/-- The spec's required structured enrichment object, stated from the
spec's words for comparison with the code's acceptance guard: fields
summary, analysis and impact_on_commodities present, and both impact
scores present as integers in 1..10. -/
def lookupField (a : AnalysisObj) (k : String) : Option JsonVal :=
  (a.find? fun p => p.1 == k).map fun p => p.2

def scoreOk (v : Option JsonVal) : Bool :=
  match v with
  | some (JsonVal.num n) => decide (1 ≤ n) && decide (n ≤ 10)
  | _ => false

def specConformingResponse (a : AnalysisObj) : Bool :=
  (lookupField a "summary").isSome &&
  (lookupField a "analysis").isSome &&
  (lookupField a "impact_on_commodities").isSome &&
  scoreOk (lookupField a "gold_impact_score") &&
  scoreOk (lookupField a "silver_impact_score")

/-- A dispatched notification, tagged by which call site sent it
(main.py line 127 vs line 153) and the action id recorded for it. -/
inductive Dispatch where
  | preAlert (id : String)
  | postAnalysis (id : String)
  deriving DecidableEq, Repr

def actionId : Dispatch → String
  | Dispatch.preAlert i => i
  | Dispatch.postAnalysis i => i

/-- main.py lines 118-128: the pre-alert branch for one event.  Receives
the cycle's fixed `processed_ids` (line 105) and the current STATE_FILE
contents; returns the new file contents and the dispatches made. -/
def preStep (now : Int) (processed_ids stateFile : List String) (e : Event) :
    List String × List Dispatch :=
  if preWindow now e = true ∧ pre_alert_id e ∉ processed_ids then
    (save_processed_event stateFile (pre_alert_id e), [Dispatch.preAlert (pre_alert_id e)])
  else (stateFile, [])

/-- main.py lines 130-154: the post-analysis branch for one event.
Enrichment is consulted only once all guards pass; its result is
dispatched and recorded iff `acceptsAnalysis` holds. -/
def postStep (now : Int) (enrich : Event → AnalysisObj) (processed_ids stateFile : List String)
    (e : Event) : List String × List Dispatch :=
  if e.actual.isSome = true ∧ postWindow now e = true ∧ post_analysis_id e ∉ processed_ids then
    if acceptsAnalysis (enrich e) = true then
      (save_processed_event stateFile (post_analysis_id e), [Dispatch.postAnalysis (post_analysis_id e)])
    else (stateFile, [])
  else (stateFile, [])

/-- main.py lines 109-154: the loop body for one event: filter guard,
then the pre-alert branch, then the post-analysis branch, threading the
STATE_FILE contents (each `save_processed_event` re-reads the file). -/
def processOne (now : Int) (enrich : Event → AnalysisObj) (processed_ids stateFile : List String)
    (e : Event) : List String × List Dispatch :=
  if passesFilters e = true then
    ((postStep now enrich processed_ids (preStep now processed_ids stateFile e).1 e).1,
     (preStep now processed_ids stateFile e).2 ++
       (postStep now enrich processed_ids (preStep now processed_ids stateFile e).1 e).2)
  else (stateFile, [])

/-- main.py lines 109-154: fold `processOne` over `events_to_process`.
`processed_ids` is loaded once at line 105 and never refreshed inside the
loop; only the STATE_FILE contents are threaded. -/
def processEvents (now : Int) (enrich : Event → AnalysisObj) (processed_ids : List String) :
    List String → List Event → List String × List Dispatch
  | stateFile, [] => (stateFile, [])
  | stateFile, e :: rest =>
    ((processEvents now enrich processed_ids
        (processOne now enrich processed_ids stateFile e).1 rest).1,
     (processOne now enrich processed_ids stateFile e).2 ++
       (processEvents now enrich processed_ids
         (processOne now enrich processed_ids stateFile e).1 rest).2)

/-- The bot's persistent state: the in-memory `last_schedule_fetch_date`
(main.py line 66; lost on restart) and the two files, SCHEDULE_FILE and
STATE_FILE (persisted across restarts). -/
structure BotState where
  lastFetchDate : Option Int
  scheduleFile : List Event
  stateFile : List String
  deriving DecidableEq, Repr

/-- `now_utc.date()` from epoch seconds: the UTC day number. -/
def dateOf (now : Int) : Int := now / 86400

/-- The environment one cycle observes: whether the process was restarted
before it, the wall clock, the outcome of a daily fetch and of a burst
fetch were they attempted (`none` = the fetch failed), and the enrichment
results. -/
structure CycleSpec where
  restart : Bool
  now : Int
  dailyFetch : Option (List Event)
  burstFetch : Option (List Event)
  enrich : Event → AnalysisObj

structure CycleResult where
  state : BotState
  dispatched : List Dispatch
  skipped : Bool
  deriving Repr

/-- main.py lines 72-82: the schedule the cycle works from.  If the daily
fetch is due and fails the cycle is skipped (`none`): the loop sleeps and
`continue`s.  On success the fetched list is saved to SCHEDULE_FILE and
reloaded at line 82. -/
def effectiveSchedule (st : BotState) (c : CycleSpec) : Option (List Event) :=
  if st.lastFetchDate ≠ some (dateOf c.now) then c.dailyFetch
  else some st.scheduleFile

/-- main.py lines 96-107: `live_data = []`, replaced by the burst fetch
result in an active window (`none` if that fetch fails); line 107 picks
`live_data` whenever it is not None, else the saved schedule.  In a
dormant cycle `live_data` is the initial empty list — not None — so the
loop iterates over the empty list. -/
def cycleEvents (c : CycleSpec) (schedule : List Event) : List Event :=
  (if is_active_window c.now schedule then c.burstFetch else some []).getD schedule

/-- SCHEDULE_FILE after the cycle: rewritten by a successful burst fetch
(main.py line 57), untouched otherwise. -/
def cycleSchedFile (c : CycleSpec) (schedule : List Event) : List Event :=
  if is_active_window c.now schedule then c.burstFetch.getD schedule else schedule

/-- main.py lines 68-156: one iteration of the `while True` loop (minus
the sleeps).  `processed_ids` is loaded once from STATE_FILE (line 105)
and the loop body threads STATE_FILE through its saves. -/
def runCycle (st : BotState) (c : CycleSpec) : CycleResult :=
  match effectiveSchedule st c with
  | none => { state := st, dispatched := [], skipped := true }
  | some schedule =>
    { state := { lastFetchDate := some (dateOf c.now),
                 scheduleFile := cycleSchedFile c schedule,
                 stateFile := (processEvents c.now c.enrich st.stateFile st.stateFile
                   (cycleEvents c schedule)).1 },
      dispatched := (processEvents c.now c.enrich st.stateFile st.stateFile
        (cycleEvents c schedule)).2,
      skipped := false }

/-- A process restart keeps both files but loses the in-memory
`last_schedule_fetch_date` (main.py line 66). -/
def afterRestart (c : CycleSpec) (st : BotState) : BotState :=
  if c.restart then { st with lastFetchDate := none } else st

/-- A run: a sequence of cycles, each possibly preceded by a process
restart. -/
def runTrace : BotState → List CycleSpec → BotState × List Dispatch
  | st, [] => (st, [])
  | st, c :: cs =>
    ((runTrace (runCycle (afterRestart c st) c).state cs).1,
     (runCycle (afterRestart c st) c).dispatched ++
       (runTrace (runCycle (afterRestart c st) c).state cs).2)

/-- How many of the trace's dispatches carry action identifier `a`. -/
def countA (ds : List Dispatch) (a : String) : Nat := (ds.map actionId).count a

/-- A calendar list with no duplicate or overlapping entries: distinct
positions derive distinct event identities. -/
def idNodup (l : List Event) : Prop := (l.map event_id).Nodup

instance (l : List Event) : Decidable (idNodup l) := List.nodupDecidable _

/-- A fetch outcome whose payload, when present, has no duplicate
identities. -/
def fetchNodup : Option (List Event) → Prop
  | none => True
  | some l => idNodup l

instance : (o : Option (List Event)) → Decidable (fetchNodup o)
  | none => isTrue trivial
  | some l => inferInstanceAs (Decidable (idNodup l))

/-- A persisted file as the loader sees it. -/
inductive FileContent (α : Type) where
  | missing
  | corrupt
  | stored (data : α)

/-- main.py lines 25-32: a missing file or undecodable JSON yields the
supplied default. -/
def load_json_file {α : Type} : FileContent α → α → α
  | FileContent.missing, d => d
  | FileContent.corrupt, d => d
  | FileContent.stored x, _ => x

/-- main.py lines 38-41 at file level: read the whole persisted set
(empty default), add the id, write the whole set back. -/
def save_processed_event_file (f : FileContent (List String)) (eid : String) :
    FileContent (List String) :=
  FileContent.stored (save_processed_event (load_json_file f []) eid)

/-! Helper lemmas about identifiers. -/

theorem pre_ne_post_str (s t : String) : ("pre-" ++ s) ≠ ("post-" ++ t) := by
  intro h
  have h2 : ("pre-" ++ s).data = ("post-" ++ t).data := congrArg String.data h
  simp [String.data_append] at h2

theorem pre_str_inj {s t : String} (h : ("pre-" ++ s) = ("pre-" ++ t)) : s = t := by
  have h2 := congrArg String.data h
  simp [String.data_append] at h2
  exact String.ext h2

theorem post_str_inj {s t : String} (h : ("post-" ++ s) = ("post-" ++ t)) : s = t := by
  have h2 := congrArg String.data h
  simp [String.data_append] at h2
  exact String.ext h2

theorem pre_alert_id_ne_post (e₁ e₂ : Event) : pre_alert_id e₁ ≠ post_analysis_id e₂ :=
  pre_ne_post_str _ _

theorem pre_alert_id_inj {e₁ e₂ : Event} (h : pre_alert_id e₁ = pre_alert_id e₂) :
    event_id e₁ = event_id e₂ := pre_str_inj h

theorem post_analysis_id_inj {e₁ e₂ : Event} (h : post_analysis_id e₁ = post_analysis_id e₂) :
    event_id e₁ = event_id e₂ := post_str_inj h

/-! Helper lemmas about the window guards. -/

theorem preWindow_iff (now : Int) (e : Event) :
    preWindow now e = true ↔ 0 < e.date - now ∧ e.date - now ≤ minutes PRE_ALERT_MINUTES := by
  simp [preWindow]

theorem postWindow_iff (now : Int) (e : Event) :
    postWindow now e = true ↔ 0 ≤ now - e.date ∧ now - e.date < minutes 3 := by
  simp [postWindow]

/-! Helper lemmas about the ledger write. -/

theorem mem_save_of_mem {l : List String} {x : String} (a : String) (h : x ∈ l) :
    x ∈ save_processed_event l a := List.mem_insert_of_mem h

theorem mem_save_self (l : List String) (a : String) : a ∈ save_processed_event l a :=
  List.mem_insert_self a l

/-! Helper lemmas about the two per-event branches. -/

theorem preStep_pos {now : Int} {procd stf : List String} {e : Event}
    (h1 : preWindow now e = true) (h2 : pre_alert_id e ∉ procd) :
    preStep now procd stf e =
      (save_processed_event stf (pre_alert_id e), [Dispatch.preAlert (pre_alert_id e)]) := by
  unfold preStep
  rw [if_pos ⟨h1, h2⟩]

theorem preStep_neg {now : Int} {procd stf : List String} {e : Event}
    (h : ¬(preWindow now e = true ∧ pre_alert_id e ∉ procd)) :
    preStep now procd stf e = (stf, []) := by
  unfold preStep
  rw [if_neg h]

theorem preStep_fst_mem {now : Int} {procd stf : List String} {e : Event} {x : String}
    (h : x ∈ stf) : x ∈ (preStep now procd stf e).1 := by
  unfold preStep
  split
  · exact mem_save_of_mem _ h
  · exact h

theorem preStep_snd_mem {now : Int} {procd stf : List String} {e : Event} {d : Dispatch}
    (h : d ∈ (preStep now procd stf e).2) :
    d = Dispatch.preAlert (pre_alert_id e) ∧ preWindow now e = true ∧
      pre_alert_id e ∉ procd := by
  unfold preStep at h
  split at h
  · next hc => simpa using ⟨(by simpa using h), hc⟩
  · simp at h

theorem postStep_pos {now : Int} {enrich : Event → AnalysisObj} {procd stf : List String}
    {e : Event}
    (h1 : e.actual.isSome = true) (h2 : postWindow now e = true)
    (h3 : post_analysis_id e ∉ procd) (h4 : acceptsAnalysis (enrich e) = true) :
    postStep now enrich procd stf e =
      (save_processed_event stf (post_analysis_id e),
       [Dispatch.postAnalysis (post_analysis_id e)]) := by
  unfold postStep
  rw [if_pos ⟨h1, h2, h3⟩, if_pos h4]

theorem postStep_rej {now : Int} {enrich : Event → AnalysisObj} {procd stf : List String}
    {e : Event} (h4 : ¬acceptsAnalysis (enrich e) = true) :
    postStep now enrich procd stf e = (stf, []) := by
  have hacc : acceptsAnalysis (enrich e) = false := by simpa using h4
  unfold postStep
  split
  · simp [hacc]
  · rfl

theorem postStep_neg {now : Int} {enrich : Event → AnalysisObj} {procd stf : List String}
    {e : Event}
    (h : ¬(e.actual.isSome = true ∧ postWindow now e = true ∧ post_analysis_id e ∉ procd)) :
    postStep now enrich procd stf e = (stf, []) := by
  unfold postStep
  rw [if_neg h]

theorem postStep_fst_mem {now : Int} {enrich : Event → AnalysisObj} {procd stf : List String}
    {e : Event} {x : String} (h : x ∈ stf) : x ∈ (postStep now enrich procd stf e).1 := by
  unfold postStep
  split
  · split
    · exact mem_save_of_mem _ h
    · exact h
  · exact h

theorem postStep_snd_mem {now : Int} {enrich : Event → AnalysisObj} {procd stf : List String}
    {e : Event} {d : Dispatch} (h : d ∈ (postStep now enrich procd stf e).2) :
    d = Dispatch.postAnalysis (post_analysis_id e) ∧ e.actual.isSome = true ∧
      postWindow now e = true ∧ post_analysis_id e ∉ procd ∧
      acceptsAnalysis (enrich e) = true := by
  unfold postStep at h
  split at h
  · next hc =>
    split at h
    · next hacc => exact ⟨by simpa using h, hc.1, hc.2.1, hc.2.2, hacc⟩
    · simp at h
  · simp at h

/-! Helper lemmas about the per-event loop body. -/

theorem processOne_neg {now : Int} {enrich : Event → AnalysisObj} {procd stf : List String}
    {e : Event} (h : ¬passesFilters e = true) :
    processOne now enrich procd stf e = (stf, []) := by
  unfold processOne
  rw [if_neg h]

theorem processOne_fst_mem {now : Int} {enrich : Event → AnalysisObj} {procd stf : List String}
    {e : Event} {x : String} (h : x ∈ stf) : x ∈ (processOne now enrich procd stf e).1 := by
  unfold processOne
  split
  · exact postStep_fst_mem (preStep_fst_mem h)
  · exact h

theorem processOne_snd_mem {now : Int} {enrich : Event → AnalysisObj} {procd stf : List String}
    {e : Event} {d : Dispatch} (h : d ∈ (processOne now enrich procd stf e).2) :
    (d = Dispatch.preAlert (pre_alert_id e) ∧ preWindow now e = true ∧
       pre_alert_id e ∉ procd) ∨
    (d = Dispatch.postAnalysis (post_analysis_id e) ∧ e.actual.isSome = true ∧
       postWindow now e = true ∧ post_analysis_id e ∉ procd ∧
       acceptsAnalysis (enrich e) = true) := by
  unfold processOne at h
  split at h
  · rcases List.mem_append.mp h with h1 | h2
    · exact Or.inl (preStep_snd_mem h1)
    · exact Or.inr (postStep_snd_mem h2)
  · simp at h

theorem processOne_not_processed {now : Int} {enrich : Event → AnalysisObj}
    {procd stf : List String} {e : Event} {d : Dispatch}
    (h : d ∈ (processOne now enrich procd stf e).2) : actionId d ∉ procd := by
  rcases processOne_snd_mem h with ⟨hd, _, hp⟩ | ⟨hd, _, _, hp, _⟩ <;> rw [hd] <;> exact hp

theorem processOne_saved {now : Int} {enrich : Event → AnalysisObj} {procd stf : List String}
    {e : Event} {d : Dispatch} (h : d ∈ (processOne now enrich procd stf e).2) :
    actionId d ∈ (processOne now enrich procd stf e).1 := by
  have hf : passesFilters e = true := by
    by_contra hf
    rw [processOne_neg hf] at h
    simp at h
  rcases processOne_snd_mem h with ⟨hd, hw, hp⟩ | ⟨hd, ha, hw, hp, hacc⟩
  · rw [hd]
    unfold processOne
    rw [if_pos hf]
    refine postStep_fst_mem ?_
    rw [preStep_pos hw hp]
    exact mem_save_self _ _
  · rw [hd]
    unfold processOne
    rw [if_pos hf, postStep_pos ha hw hp hacc]
    exact mem_save_self _ _

theorem processOne_ids_nodup (now : Int) (enrich : Event → AnalysisObj)
    (procd stf : List String) (e : Event) :
    ((processOne now enrich procd stf e).2.map actionId).Nodup := by
  unfold processOne
  split
  · by_cases h1 : preWindow now e = true ∧ pre_alert_id e ∉ procd
    · rw [preStep_pos h1.1 h1.2]
      by_cases h2 : e.actual.isSome = true ∧ postWindow now e = true ∧
          post_analysis_id e ∉ procd
      · by_cases h3 : acceptsAnalysis (enrich e) = true
        · rw [postStep_pos h2.1 h2.2.1 h2.2.2 h3]
          simp [actionId, pre_alert_id_ne_post e e]
        · rw [postStep_rej h3]
          simp
      · rw [postStep_neg h2]
        simp
    · rw [preStep_neg h1]
      by_cases h2 : e.actual.isSome = true ∧ postWindow now e = true ∧
          post_analysis_id e ∉ procd
      · by_cases h3 : acceptsAnalysis (enrich e) = true
        · rw [postStep_pos h2.1 h2.2.1 h2.2.2 h3]
          simp
        · rw [postStep_rej h3]
          simp
      · rw [postStep_neg h2]
        simp
  · simp

/-! Helper lemmas about dispatch counting. -/

theorem countA_append (ds1 ds2 : List Dispatch) (a : String) :
    countA (ds1 ++ ds2) a = countA ds1 a + countA ds2 a := by
  simp [countA]

theorem countA_pos_iff {ds : List Dispatch} {a : String} :
    0 < countA ds a ↔ ∃ d ∈ ds, actionId d = a := by
  simp [countA, List.count_pos_iff, List.mem_map]

theorem countA_le_one_of_nodup {ds : List Dispatch} (h : (ds.map actionId).Nodup)
    (a : String) : countA ds a ≤ 1 :=
  List.nodup_iff_count_le_one.mp h a

/-! Helper lemmas about the whole event-processing loop. -/

theorem processEvents_fst_mem (now : Int) (enrich : Event → AnalysisObj) (procd : List String)
    (evts : List Event) :
    ∀ (stf : List String) (x : String), x ∈ stf →
      x ∈ (processEvents now enrich procd stf evts).1 := by
  induction evts with
  | nil => intro stf x h; simpa [processEvents] using h
  | cons e rest ih =>
    intro stf x h
    simp only [processEvents]
    exact ih _ _ (processOne_fst_mem h)

theorem processEvents_snd_mem (now : Int) (enrich : Event → AnalysisObj) (procd : List String)
    (evts : List Event) :
    ∀ (stf : List String) (d : Dispatch), d ∈ (processEvents now enrich procd stf evts).2 →
      ∃ e ∈ evts, d = Dispatch.preAlert (pre_alert_id e) ∨
        d = Dispatch.postAnalysis (post_analysis_id e) := by
  induction evts with
  | nil => intro stf d h; simp [processEvents] at h
  | cons e rest ih =>
    intro stf d h
    simp only [processEvents, List.mem_append] at h
    rcases h with h1 | h2
    · rcases processOne_snd_mem h1 with ⟨hd, _⟩ | ⟨hd, _⟩
      · exact ⟨e, List.mem_cons_self e rest, Or.inl hd⟩
      · exact ⟨e, List.mem_cons_self e rest, Or.inr hd⟩
    · obtain ⟨e', he', hd⟩ := ih _ _ h2
      exact ⟨e', List.mem_cons_of_mem e he', hd⟩

theorem processEvents_not_processed (now : Int) (enrich : Event → AnalysisObj)
    (procd : List String) (evts : List Event) :
    ∀ (stf : List String) (d : Dispatch), d ∈ (processEvents now enrich procd stf evts).2 →
      actionId d ∉ procd := by
  induction evts with
  | nil => intro stf d h; simp [processEvents] at h
  | cons e rest ih =>
    intro stf d h
    simp only [processEvents, List.mem_append] at h
    rcases h with h1 | h2
    · exact processOne_not_processed h1
    · exact ih _ _ h2

theorem processEvents_saved (now : Int) (enrich : Event → AnalysisObj) (procd : List String)
    (evts : List Event) :
    ∀ (stf : List String) (d : Dispatch), d ∈ (processEvents now enrich procd stf evts).2 →
      actionId d ∈ (processEvents now enrich procd stf evts).1 := by
  induction evts with
  | nil => intro stf d h; simp [processEvents] at h
  | cons e rest ih =>
    intro stf d h
    simp only [processEvents, List.mem_append] at h ⊢
    rcases h with h1 | h2
    · exact processEvents_fst_mem now enrich procd rest _ _ (processOne_saved h1)
    · exact ih _ _ h2

theorem processEvents_count_le_one (now : Int) (enrich : Event → AnalysisObj)
    (procd : List String) (evts : List Event) (h : idNodup evts) :
    ∀ (stf : List String) (a : String),
      countA (processEvents now enrich procd stf evts).2 a ≤ 1 := by
  induction evts with
  | nil => intro stf a; simp [processEvents, countA]
  | cons e rest ih =>
    intro stf a
    have hn := (List.nodup_cons.mp h)
    simp only [processEvents, countA_append]
    have hhead : countA (processOne now enrich procd stf e).2 a ≤ 1 :=
      countA_le_one_of_nodup (processOne_ids_nodup now enrich procd stf e) a
    have htail : countA (processEvents now enrich procd
        (processOne now enrich procd stf e).1 rest).2 a ≤ 1 := ih hn.2 _ a
    by_cases hpos : 0 < countA (processOne now enrich procd stf e).2 a ∧
        0 < countA (processEvents now enrich procd
          (processOne now enrich procd stf e).1 rest).2 a
    · exfalso
      obtain ⟨d1, hd1, ha1⟩ := countA_pos_iff.mp hpos.1
      obtain ⟨d2, hd2, ha2⟩ := countA_pos_iff.mp hpos.2
      obtain ⟨e', he', hshape2⟩ := processEvents_snd_mem now enrich procd rest _ _ hd2
      have hshape1 := processOne_snd_mem hd1
      have heq : event_id e = event_id e' := by
        rcases hshape1 with ⟨hd, _⟩ | ⟨hd, _⟩ <;> rcases hshape2 with h2 | h2 <;>
            rw [hd] at ha1 <;> rw [h2] at ha2 <;>
            simp only [actionId] at ha1 ha2 <;>
            rw [← ha2] at ha1
        · exact pre_alert_id_inj ha1
        · exact absurd ha1 (pre_ne_post_str _ _)
        · exact absurd ha1.symm (pre_ne_post_str _ _)
        · exact post_analysis_id_inj ha1
      have : event_id e' ∈ rest.map event_id := List.mem_map_of_mem event_id he'
      rw [← heq] at this
      exact hn.1 (by simpa using this)
    · omega

theorem processEvents_pre_complete (now : Int) (enrich : Event → AnalysisObj)
    (procd : List String) (evts : List Event) :
    ∀ (stf : List String) (e : Event), e ∈ evts → passesFilters e = true →
      preWindow now e = true → pre_alert_id e ∉ procd →
      Dispatch.preAlert (pre_alert_id e) ∈ (processEvents now enrich procd stf evts).2 := by
  induction evts with
  | nil => intro stf e h; simp at h
  | cons e' rest ih =>
    intro stf e hmem hf hw hp
    simp only [processEvents, List.mem_append]
    rcases List.mem_cons.mp hmem with heq | hrest
    · subst heq
      left
      unfold processOne
      rw [if_pos hf, preStep_pos hw hp]
      simp
    · exact Or.inr (ih _ _ hrest hf hw hp)

/-! Helper lemmas about a single cycle. -/

theorem runCycle_skip {st : BotState} {c : CycleSpec} (h : effectiveSchedule st c = none) :
    runCycle st c = { state := st, dispatched := [], skipped := true } := by
  unfold runCycle
  rw [h]

theorem runCycle_run {st : BotState} {c : CycleSpec} {schedule : List Event}
    (h : effectiveSchedule st c = some schedule) :
    runCycle st c =
      { state := { lastFetchDate := some (dateOf c.now),
                   scheduleFile := cycleSchedFile c schedule,
                   stateFile := (processEvents c.now c.enrich st.stateFile st.stateFile
                     (cycleEvents c schedule)).1 },
        dispatched := (processEvents c.now c.enrich st.stateFile st.stateFile
          (cycleEvents c schedule)).2,
        skipped := false } := by
  unfold runCycle
  rw [h]

theorem effectiveSchedule_nodup {st : BotState} {c : CycleSpec} {schedule : List Event}
    (hd : fetchNodup c.dailyFetch) (hs : idNodup st.scheduleFile)
    (h : effectiveSchedule st c = some schedule) : idNodup schedule := by
  unfold effectiveSchedule at h
  split at h
  · cases hf : c.dailyFetch with
    | none => rw [hf] at h; cases h
    | some l =>
      rw [hf] at h
      cases h
      rw [hf] at hd
      exact hd
  · cases h
    exact hs

theorem cycleEvents_nodup {c : CycleSpec} {schedule : List Event}
    (hb : fetchNodup c.burstFetch) (hs : idNodup schedule) :
    idNodup (cycleEvents c schedule) := by
  unfold cycleEvents
  split
  · cases hf : c.burstFetch with
    | none => simpa using hs
    | some l => rw [hf] at hb; simpa using hb
  · simp [idNodup]

theorem cycleSchedFile_nodup {c : CycleSpec} {schedule : List Event}
    (hb : fetchNodup c.burstFetch) (hs : idNodup schedule) :
    idNodup (cycleSchedFile c schedule) := by
  unfold cycleSchedFile
  split
  · cases hf : c.burstFetch with
    | none => simpa using hs
    | some l => rw [hf] at hb; simpa using hb
  · exact hs

theorem runCycle_mono {st : BotState} {c : CycleSpec} {x : String} (h : x ∈ st.stateFile) :
    x ∈ (runCycle st c).state.stateFile := by
  cases he : effectiveSchedule st c with
  | none => rw [runCycle_skip he]; exact h
  | some schedule =>
    rw [runCycle_run he]
    exact processEvents_fst_mem _ _ _ _ _ _ h

theorem runCycle_not_processed {st : BotState} {c : CycleSpec} {d : Dispatch}
    (h : d ∈ (runCycle st c).dispatched) : actionId d ∉ st.stateFile := by
  cases he : effectiveSchedule st c with
  | none => rw [runCycle_skip he] at h; simp at h
  | some schedule =>
    rw [runCycle_run he] at h
    exact processEvents_not_processed _ _ _ _ _ _ h

theorem runCycle_saved {st : BotState} {c : CycleSpec} {d : Dispatch}
    (h : d ∈ (runCycle st c).dispatched) : actionId d ∈ (runCycle st c).state.stateFile := by
  cases he : effectiveSchedule st c with
  | none => rw [runCycle_skip he] at h; simp at h
  | some schedule =>
    rw [runCycle_run he] at h ⊢
    exact processEvents_saved _ _ _ _ _ _ h

theorem runCycle_count_le_one {st : BotState} {c : CycleSpec}
    (hd : fetchNodup c.dailyFetch) (hb : fetchNodup c.burstFetch)
    (hs : idNodup st.scheduleFile) (a : String) :
    countA (runCycle st c).dispatched a ≤ 1 := by
  cases he : effectiveSchedule st c with
  | none => rw [runCycle_skip he]; simp [countA]
  | some schedule =>
    rw [runCycle_run he]
    exact processEvents_count_le_one _ _ _ _
      (cycleEvents_nodup hb (effectiveSchedule_nodup hd hs he)) _ a

theorem runCycle_sched_nodup {st : BotState} {c : CycleSpec}
    (hd : fetchNodup c.dailyFetch) (hb : fetchNodup c.burstFetch)
    (hs : idNodup st.scheduleFile) : idNodup (runCycle st c).state.scheduleFile := by
  cases he : effectiveSchedule st c with
  | none => rw [runCycle_skip he]; exact hs
  | some schedule =>
    rw [runCycle_run he]
    exact cycleSchedFile_nodup hb (effectiveSchedule_nodup hd hs he)

theorem afterRestart_stateFile (c : CycleSpec) (st : BotState) :
    (afterRestart c st).stateFile = st.stateFile := by
  unfold afterRestart
  split <;> rfl

theorem afterRestart_scheduleFile (c : CycleSpec) (st : BotState) :
    (afterRestart c st).scheduleFile = st.scheduleFile := by
  unfold afterRestart
  split <;> rfl

/-- The core at-most-once induction over a whole run: under
duplicate-free fetches, each action identifier `a` is dispatched at most
once, never when it is already in the ledger, and once dispatched (or
already recorded) it is in the final ledger. -/
theorem runTrace_bundle (cs : List CycleSpec) :
    ∀ (st : BotState), idNodup st.scheduleFile →
      (∀ c ∈ cs, fetchNodup c.dailyFetch ∧ fetchNodup c.burstFetch) →
      ∀ (a : String),
        countA (runTrace st cs).2 a ≤ 1 ∧
        (a ∈ st.stateFile → countA (runTrace st cs).2 a = 0) ∧
        ((0 < countA (runTrace st cs).2 a ∨ a ∈ st.stateFile) →
          a ∈ (runTrace st cs).1.stateFile) := by
  induction cs with
  | nil =>
    intro st _ _ a
    refine ⟨by simp [runTrace, countA], by simp [runTrace, countA], ?_⟩
    intro h
    rcases h with h | h
    · simp [runTrace, countA] at h
    · simpa [runTrace] using h
  | cons c cs ih =>
    intro st hs hcs a
    have hc := hcs c (List.mem_cons_self c cs)
    have hcs' : ∀ c' ∈ cs, fetchNodup c'.dailyFetch ∧ fetchNodup c'.burstFetch :=
      fun c' h => hcs c' (List.mem_cons_of_mem c h)
    have hs0 : idNodup (afterRestart c st).scheduleFile := by
      rw [afterRestart_scheduleFile]; exact hs
    have hsched : idNodup (runCycle (afterRestart c st) c).state.scheduleFile :=
      runCycle_sched_nodup hc.1 hc.2 hs0
    have ihr := ih (runCycle (afterRestart c st) c).state hsched hcs' a
    have hcycle : countA (runCycle (afterRestart c st) c).dispatched a ≤ 1 :=
      runCycle_count_le_one hc.1 hc.2 hs0 a
    have hmem0 : a ∈ st.stateFile → a ∈ (afterRestart c st).stateFile := by
      rw [afterRestart_stateFile]; exact id
    have hcount0 : a ∈ st.stateFile →
        countA (runCycle (afterRestart c st) c).dispatched a = 0 := by
      intro hmem
      by_contra hpos
      obtain ⟨d, hd, hda⟩ := countA_pos_iff.mp (Nat.pos_of_ne_zero hpos)
      exact runCycle_not_processed hd (hda ▸ hmem0 hmem)
    have hsave : 0 < countA (runCycle (afterRestart c st) c).dispatched a →
        a ∈ (runCycle (afterRestart c st) c).state.stateFile := by
      intro hpos
      obtain ⟨d, hd, hda⟩ := countA_pos_iff.mp hpos
      exact hda ▸ runCycle_saved hd
    simp only [runTrace, countA_append]
    refine ⟨?_, ?_, ?_⟩
    · by_cases hb : 0 < countA (runCycle (afterRestart c st) c).dispatched a
      · have : a ∈ (runCycle (afterRestart c st) c).state.stateFile := hsave hb
        have htail := ihr.2.1 this
        omega
      · have := ihr.1
        omega
    · intro hmem
      have h1 := hcount0 hmem
      have h2 : a ∈ (runCycle (afterRestart c st) c).state.stateFile :=
        runCycle_mono (hmem0 hmem)
      have h3 := ihr.2.1 h2
      omega
    · intro h
      by_cases hb : 0 < countA (runCycle (afterRestart c st) c).dispatched a
      · exact ihr.2.2 (Or.inr (hsave hb))
      · rcases h with h | h
        · exact ihr.2.2 (Or.inl (by omega))
        · exact ihr.2.2 (Or.inr (runCycle_mono (hmem0 h)))

/-! Dispatch characterizations used by the claims. -/

theorem processOne_pre_iff (now : Int) (enrich : Event → AnalysisObj) (procd stf : List String)
    (e : Event) (hf : passesFilters e = true) (hp : pre_alert_id e ∉ procd) :
    Dispatch.preAlert (pre_alert_id e) ∈ (processOne now enrich procd stf e).2 ↔
      0 < e.date - now ∧ e.date - now ≤ minutes PRE_ALERT_MINUTES := by
  constructor
  · intro h
    rcases processOne_snd_mem h with ⟨_, hw, _⟩ | ⟨hd, _⟩
    · exact (preWindow_iff now e).mp hw
    · simp at hd
  · intro hw
    unfold processOne
    rw [if_pos hf, preStep_pos ((preWindow_iff now e).mpr hw) hp]
    simp

theorem processOne_post_intro (now : Int) (enrich : Event → AnalysisObj)
    (procd stf : List String) (e : Event) (hf : passesFilters e = true)
    (hp : post_analysis_id e ∉ procd) (ha : e.actual.isSome = true)
    (hw : postWindow now e = true) (hacc : acceptsAnalysis (enrich e) = true) :
    Dispatch.postAnalysis (post_analysis_id e) ∈ (processOne now enrich procd stf e).2 := by
  unfold processOne
  rw [if_pos hf, postStep_pos ha hw hp hacc]
  simp

theorem processOne_fst_no_new_post {now : Int} {enrich : Event → AnalysisObj}
    {procd stf : List String} {e : Event}
    (hstf : post_analysis_id e ∉ stf) (hacc : ¬acceptsAnalysis (enrich e) = true) :
    post_analysis_id e ∉ (processOne now enrich procd stf e).1 := by
  unfold processOne
  split
  · rw [postStep_rej hacc]
    unfold preStep
    split
    · intro hmem
      rcases List.mem_insert_iff.mp hmem with heq | hmem'
      · exact pre_ne_post_str _ _ heq.symm
      · exact hstf hmem'
    · exact hstf
  · exact hstf

/-! Concrete sample data used by counterexamples and witnesses.  The
event matches the spec's own worked scenario (high-impact US CPI); its
scheduled time is 600 s into the epoch day. -/

def sampleEvent : Event :=
  { eventName := "CPI", country := "US", impact := "high", date := 600,
    actual := none, estimate := none, previous := none }

/-- The same release once `actual` is published with the value 0. -/
def sampleReleased : Event :=
  { eventName := "CPI", country := "US", impact := "high", date := 600,
    actual := some 0, estimate := some 2, previous := some 1 }

/-- A conforming enrichment object. -/
def goodObj : AnalysisObj :=
  [("summary", JsonVal.str "s"), ("analysis", JsonVal.str "a"),
   ("impact_on_commodities", JsonVal.str "i"),
   ("gold_impact_score", JsonVal.num 7), ("silver_impact_score", JsonVal.num 6)]

/-- A parseable but non-conforming enrichment object: truthy, no error
key, required fields missing. -/
def badObj : AnalysisObj := [("summary", JsonVal.str "hi")]

/-- The error marker gemini_analyzer returns on any failure. -/
def errObj : AnalysisObj := [("error", JsonVal.str "boom")]

/-- A steady state: today's schedule already fetched, ledger empty. -/
def steadyState : BotState :=
  { lastFetchDate := some 0, scheduleFile := [sampleEvent], stateFile := [] }

/-! Claim C1. -/

/-- A cycle whose burst fetch returns the same event twice. -/
def dupCycle : CycleSpec :=
  { restart := false, now := 480, dailyFetch := none,
    burstFetch := some [sampleEvent, sampleEvent], enrich := fun _ => [] }

/-- C1 counterexample: a single cycle whose fetched calendar contains two
entries describing the same event dispatches that event's pre-alert
notification twice — `processed_ids` is loaded once per cycle (main.py
line 105) and not refreshed after `save_processed_event`, so the second
duplicate passes the `not in processed_ids` check again. -/
theorem c1_counterexample :
    countA (runTrace steadyState [dupCycle]).2 (pre_alert_id sampleEvent) = 2 := by decide

/-- C1 (amended): provided the initial saved schedule and every
successfully fetched calendar list contain no two entries deriving the
same event identity, every action identifier is dispatched at most once
across every sequence of poll cycles and process restarts. -/
theorem c1_at_most_once (st : BotState) (cs : List CycleSpec)
    (hs : idNodup st.scheduleFile)
    (hcs : ∀ c ∈ cs, fetchNodup c.dailyFetch ∧ fetchNodup c.burstFetch)
    (a : String) : countA (runTrace st cs).2 a ≤ 1 :=
  (runTrace_bundle cs st hs hcs a).1

/-- A duplicate-free burst cycle that does dispatch a pre-alert. -/
def singleCycle : CycleSpec :=
  { restart := false, now := 480, dailyFetch := none,
    burstFetch := some [sampleEvent], enrich := fun _ => [] }

/-- C1 witness: the amended theorem applied to a concrete two-cycle run
(with a restart before the second cycle) in which the pre-alert fires
exactly once. -/
theorem c1_witness :
    idNodup steadyState.scheduleFile ∧
    countA (runTrace steadyState [singleCycle, { singleCycle with restart := true }]).2
      (pre_alert_id sampleEvent) ≤ 1 :=
  ⟨by decide,
   c1_at_most_once steadyState [singleCycle, { singleCycle with restart := true }]
     (by decide) (by decide) (pre_alert_id sampleEvent)⟩

/-! Claim C2. -/

/-- C2: the burst trigger's window is reversed relative to the spec (and
to the code's own comment "Active window is from 5 mins before to 3 mins
after event").  The guard `-PRE_ALERT_MINUTES <= time_to_event <= 3min`
makes the loop dormant 4 minutes before the event and active 4 minutes
after it, while the spec's window `[-5min, +3min]` says the opposite. -/
theorem c2_window_reversed :
    inActiveWindow (600 - 240) sampleEvent = false ∧
    specActiveWindow (600 - 240) sampleEvent = true ∧
    inActiveWindow (600 + 240) sampleEvent = true ∧
    specActiveWindow (600 + 240) sampleEvent = false ∧
    is_active_window (600 - 240) [sampleEvent] = false := by decide

/-! Claim C3. -/

/-- C3: for an event passing the impact and country filters whose
pre-alert is not yet recorded, the pre-alert is dispatched iff
`0 < scheduledAt - now <= PRE_ALERT_MINUTES`; it fires at
`now = scheduledAt - PRE_ALERT_MINUTES`, not at `now = scheduledAt`, and
not at `now = scheduledAt - PRE_ALERT_MINUTES - 1s`. -/
theorem c3_pre_alert_window (e : Event) (enrich : Event → AnalysisObj)
    (procd stf : List String) (hf : passesFilters e = true)
    (hp : pre_alert_id e ∉ procd) :
    (∀ now : Int,
      Dispatch.preAlert (pre_alert_id e) ∈ (processOne now enrich procd stf e).2 ↔
        0 < e.date - now ∧ e.date - now ≤ minutes PRE_ALERT_MINUTES) ∧
    Dispatch.preAlert (pre_alert_id e) ∈
      (processOne (e.date - minutes PRE_ALERT_MINUTES) enrich procd stf e).2 ∧
    Dispatch.preAlert (pre_alert_id e) ∉ (processOne e.date enrich procd stf e).2 ∧
    Dispatch.preAlert (pre_alert_id e) ∉
      (processOne (e.date - minutes PRE_ALERT_MINUTES - 1) enrich procd stf e).2 := by
  have hiff := fun now => processOne_pre_iff now enrich procd stf e hf hp
  refine ⟨hiff, ?_, ?_, ?_⟩
  · refine (hiff _).mpr ?_
    simp [minutes, PRE_ALERT_MINUTES]
  · intro h
    have := (hiff _).mp h
    omega
  · intro h
    have := (hiff _).mp h
    simp [minutes, PRE_ALERT_MINUTES] at this
    omega

/-- C3 witness: the spec's worked scenario — the alert fires exactly at
the 5-minute horizon. -/
theorem c3_witness :
    passesFilters sampleEvent = true ∧
    Dispatch.preAlert (pre_alert_id sampleEvent) ∈
      (processOne (600 - minutes PRE_ALERT_MINUTES) (fun _ => []) [] [] sampleEvent).2 :=
  ⟨by decide,
   (c3_pre_alert_window sampleEvent (fun _ => []) [] [] (by decide) (by decide)).2.1⟩

/-! Claim C4. -/

/-- C4: given the action is unrecorded and the enrichment response is
accepted, the post-analysis is dispatched iff `actual` is present (any
value, including a numeric zero), `0 <= now - scheduledAt < 3 minutes`
and the impact/country filters pass; and regardless of anything else, an
event whose `actual` is absent never yields a post-analysis dispatch. -/
theorem c4_post_analysis_window (now : Int) (e : Event) (enrich : Event → AnalysisObj)
    (procd stf : List String)
    (hp : post_analysis_id e ∉ procd) (hacc : acceptsAnalysis (enrich e) = true) :
    (Dispatch.postAnalysis (post_analysis_id e) ∈ (processOne now enrich procd stf e).2 ↔
      (∃ v, e.actual = some v) ∧ 0 ≤ now - e.date ∧ now - e.date < minutes 3 ∧
        passesFilters e = true) ∧
    (∀ (now' : Int) (enrich' : Event → AnalysisObj) (procd' stf' : List String) (e' : Event),
      e'.actual = none →
      Dispatch.postAnalysis (post_analysis_id e') ∉
        (processOne now' enrich' procd' stf' e').2) := by
  constructor
  · constructor
    · intro h
      have hf : passesFilters e = true := by
        by_contra hf
        rw [processOne_neg hf] at h
        simp at h
      rcases processOne_snd_mem h with ⟨hd, _⟩ | ⟨_, ha, hw, _⟩
      · simp at hd
      · obtain ⟨hw1, hw2⟩ := (postWindow_iff now e).mp hw
        exact ⟨Option.isSome_iff_exists.mp ha, hw1, hw2, hf⟩
    · rintro ⟨⟨v, hv⟩, hw1, hw2, hf⟩
      exact processOne_post_intro now enrich procd stf e hf hp
        (by simp [hv]) ((postWindow_iff now e).mpr ⟨hw1, hw2⟩) hacc
  · intro now' enrich' procd' stf' e' hnone h
    rcases processOne_snd_mem h with ⟨hd, _⟩ | ⟨_, ha, _⟩
    · simp at hd
    · rw [hnone] at ha
      simp at ha

/-- C4 witness: a released value of zero counts as present and the
post-analysis dispatches 30 s after the scheduled time. -/
theorem c4_witness :
    sampleReleased.actual = some 0 ∧
    Dispatch.postAnalysis (post_analysis_id sampleReleased) ∈
      (processOne 630 (fun _ => goodObj) [] [] sampleReleased).2 :=
  ⟨rfl,
   (c4_post_analysis_window 630 sampleReleased (fun _ => goodObj) [] []
       (by decide) (by decide)).1.mpr ⟨⟨0, rfl⟩, by decide, by decide, by decide⟩⟩

/-! Claim C5. -/

/-- A fresh process with yesterday's snapshot on disk and a failing
calendar endpoint, while a pre-alert is due. -/
def staleState : BotState :=
  { lastFetchDate := none, scheduleFile := [sampleEvent], stateFile := [] }

def failCycle : CycleSpec :=
  { restart := false, now := 480, dailyFetch := none, burstFetch := none,
    enrich := fun _ => [] }

/-- C5 counterexample: when the DAILY refresh fails, the loop sleeps and
`continue`s (main.py lines 77-79), so the cycle dispatches nothing even
though a pre-alert is due from the last good saved snapshot — contrary to
the claim that any fetch failure still lets pre-alerts go out. -/
theorem c5_counterexample :
    passesFilters sampleEvent = true ∧
    preWindow 480 sampleEvent = true ∧
    sampleEvent ∈ staleState.scheduleFile ∧
    pre_alert_id sampleEvent ∉ staleState.stateFile ∧
    (runCycle staleState failCycle).skipped = true ∧
    (runCycle staleState failCycle).dispatched = [] := by decide

/-- C5 (amended): only the BURST re-fetch failure degrades gracefully:
in a cycle whose daily refresh is already done and whose burst fetch
fails, the loop is not skipped, it processes exactly the last good saved
snapshot, and every due, unrecorded pre-alert in that snapshot is
dispatched.  (A failed daily refresh instead skips the cycle.) -/
theorem c5_burst_failure_degrades (st : BotState) (c : CycleSpec)
    (hdate : st.lastFetchDate = some (dateOf c.now))
    (hactive : is_active_window c.now st.scheduleFile = true)
    (hburst : c.burstFetch = none) :
    (runCycle st c).skipped = false ∧
    (runCycle st c).dispatched =
      (processEvents c.now c.enrich st.stateFile st.stateFile st.scheduleFile).2 ∧
    (∀ e ∈ st.scheduleFile, passesFilters e = true → preWindow c.now e = true →
      pre_alert_id e ∉ st.stateFile →
      Dispatch.preAlert (pre_alert_id e) ∈ (runCycle st c).dispatched) := by
  have he : effectiveSchedule st c = some st.scheduleFile := by
    unfold effectiveSchedule
    rw [if_neg (by simp [hdate])]
  have hevts : cycleEvents c st.scheduleFile = st.scheduleFile := by
    unfold cycleEvents
    rw [hactive]
    simp [hburst]
  rw [runCycle_run he, hevts]
  refine ⟨rfl, rfl, ?_⟩
  intro e hmem hf hw hp
  exact processEvents_pre_complete c.now c.enrich st.stateFile st.scheduleFile _ _ hmem hf hw hp

/-- C5 witness: an in-window cycle whose burst fetch fails still sends
the due pre-alert from the saved snapshot. -/
theorem c5_witness :
    Dispatch.preAlert (pre_alert_id sampleEvent) ∈
      (runCycle steadyState failCycle).dispatched :=
  (c5_burst_failure_degrades steadyState failCycle (by decide) (by decide) rfl).2.2
    sampleEvent (by decide) (by decide) (by decide) (by decide)

/-! Claim C6. -/

/-- C6 counterexample: a parseable enrichment response with the wrong
shape (all required fields missing) is NOT treated as an error — the
post-analysis notification is dispatched and the action recorded, because
main.py line 146 only checks truthiness and the absence of an "error"
key. -/
theorem c6_counterexample :
    specConformingResponse badObj = false ∧
    acceptsAnalysis badObj = true ∧
    Dispatch.postAnalysis (post_analysis_id sampleReleased) ∈
      (processOne 630 (fun _ => badObj) [] [] sampleReleased).2 ∧
    post_analysis_id sampleReleased ∈
      (processOne 630 (fun _ => badObj) [] [] sampleReleased).1 := by decide

/-- C6 (amended): the core rejects an enrichment response iff its parsed
object is falsy (empty) or carries an "error" key — every failure path of
`analyze_event` produces such an error object — but any non-empty parsed
object without an "error" key is fully trusted, dispatched and recorded,
regardless of whether it conforms to the required structure. -/
theorem c6_error_key_only (now : Int) (e : Event) (enrich : Event → AnalysisObj)
    (procd stf : List String) (hf : passesFilters e = true)
    (hp : post_analysis_id e ∉ procd) :
    (∀ msg, acceptsAnalysis (analyze_event true (Except.error msg)) = false) ∧
    (∀ outcome, acceptsAnalysis (analyze_event false outcome) = false) ∧
    (e.actual.isSome = true → postWindow now e = true →
      (Dispatch.postAnalysis (post_analysis_id e) ∈ (processOne now enrich procd stf e).2 ↔
        acceptsAnalysis (enrich e) = true)) := by
  refine ⟨?_, ?_, ?_⟩
  · intro msg
    simp [analyze_event, acceptsAnalysis]
  · intro outcome
    simp [analyze_event, acceptsAnalysis]
  · intro ha hw
    constructor
    · intro h
      rcases processOne_snd_mem h with ⟨hd, _⟩ | ⟨_, _, _, _, hacc⟩
      · simp at hd
      · exact hacc
    · intro hacc
      exact processOne_post_intro now enrich procd stf e hf hp ha hw hacc

/-- C6 witness: the amended theorem applied at a concrete failing call —
the error marker analyze_event returns is rejected by the guard. -/
theorem c6_witness :
    acceptsAnalysis (analyze_event true (Except.error "boom")) = false :=
  (c6_error_key_only 630 sampleReleased (fun _ => goodObj) [] []
    (by decide) (by decide)).1 "boom"

/-! Claim C7. -/

/-- C7: when the enrichment result carries the error marker for a due,
unrecorded post-analysis action, nothing is dispatched and nothing is
recorded for it, and in a later cycle within the window (ledger reloaded
from the unchanged file) a successful enrichment does dispatch it. -/
theorem c7_enrichment_error_retry (now : Int) (e : Event) (enrich : Event → AnalysisObj)
    (procd stf : List String) (hf : passesFilters e = true)
    (_hp : post_analysis_id e ∉ procd) (hstf : post_analysis_id e ∉ stf)
    (herr : (enrich e).any (fun p => p.1 == "error") = true) :
    Dispatch.postAnalysis (post_analysis_id e) ∉ (processOne now enrich procd stf e).2 ∧
    post_analysis_id e ∉ (processOne now enrich procd stf e).1 ∧
    (∀ (now' : Int) (enrich' : Event → AnalysisObj),
      e.actual.isSome = true → postWindow now' e = true →
      acceptsAnalysis (enrich' e) = true →
      Dispatch.postAnalysis (post_analysis_id e) ∈
        (processOne now' enrich' (processOne now enrich procd stf e).1
          (processOne now enrich procd stf e).1 e).2) := by
  have hacc : ¬acceptsAnalysis (enrich e) = true := by
    simp [acceptsAnalysis, herr]
  have hkeep : post_analysis_id e ∉ (processOne now enrich procd stf e).1 :=
    processOne_fst_no_new_post hstf hacc
  refine ⟨?_, hkeep, ?_⟩
  · intro h
    rcases processOne_snd_mem h with ⟨hd, _⟩ | ⟨_, _, _, _, hacc'⟩
    · simp at hd
    · exact hacc hacc'
  · intro now' enrich' ha hw hacc'
    exact processOne_post_intro now' enrich' _ _ e hf hkeep ha hw hacc'

/-- C7 witness: a concrete retry — enrichment errors at +30 s, nothing is
sent or recorded, and the retry at +60 s with a good response goes out. -/
theorem c7_witness :
    Dispatch.postAnalysis (post_analysis_id sampleReleased) ∈
      (processOne 660 (fun _ => goodObj)
        (processOne 630 (fun _ => errObj) [] [] sampleReleased).1
        (processOne 630 (fun _ => errObj) [] [] sampleReleased).1 sampleReleased).2 :=
  (c7_enrichment_error_retry 630 sampleReleased (fun _ => errObj) [] []
      (by decide) (by decide) (by decide) (by decide)).2.2
    660 (fun _ => goodObj) (by decide) (by decide) (by decide)

/-! Claim C8. -/

/-- C8: recording an action id rewrites the persisted ledger to exactly
the prior set union the new id: the write goes through a read of the
entire persisted set, every previously recorded identifier survives, and
the new identifier is present. -/
theorem c8_ledger_read_modify_write (S : List String) (a : String) :
    load_json_file (save_processed_event_file (FileContent.stored S) a) [] =
      save_processed_event S a ∧
    (load_json_file (save_processed_event_file (FileContent.stored S) a) []).toFinset =
      S.toFinset ∪ {a} ∧
    (∀ x ∈ S, x ∈ load_json_file (save_processed_event_file (FileContent.stored S) a) []) ∧
    a ∈ load_json_file (save_processed_event_file (FileContent.stored S) a) [] := by
  refine ⟨rfl, ?_, ?_, ?_⟩
  · ext x
    simp [save_processed_event_file, load_json_file, save_processed_event,
      List.mem_insert_iff, or_comm]
  · intro x hx
    exact mem_save_of_mem a hx
  · exact mem_save_self S a

/-- C8 witness: a concrete write keeps the old id and adds the new one. -/
theorem c8_witness :
    ("a" ∈ load_json_file (save_processed_event_file (FileContent.stored ["a"]) "b") []) ∧
    ("b" ∈ load_json_file (save_processed_event_file (FileContent.stored ["a"]) "b") []) :=
  ⟨(c8_ledger_read_modify_write ["a"] "b").2.2.1 "a" (by decide),
   (c8_ledger_read_modify_write ["a"] "b").2.2.2⟩

/-! Claim C9. -/

/-- C9: loading a missing or undecodable file returns the supplied
default, and with the resulting empty ledger every currently-due,
filter-passing pre-alert is dispatched once more (the system fails open,
not closed). -/
theorem c9_corrupt_ledger_fails_open {α : Type} (d : α) :
    load_json_file FileContent.missing d = d ∧
    load_json_file FileContent.corrupt d = d ∧
    (∀ (now : Int) (enrich : Event → AnalysisObj) (stf : List String) (e : Event),
      passesFilters e = true → preWindow now e = true →
      Dispatch.preAlert (pre_alert_id e) ∈
        (processOne now enrich (load_json_file FileContent.corrupt ([] : List String))
          stf e).2) := by
  refine ⟨rfl, rfl, ?_⟩
  intro now enrich stf e hf hw
  show Dispatch.preAlert (pre_alert_id e) ∈ (processOne now enrich [] stf e).2
  unfold processOne
  rw [if_pos hf, preStep_pos hw (by simp)]
  simp

/-- C9 witness: the loader yields the empty default on a corrupt ledger
and the due pre-alert fires. -/
theorem c9_witness :
    load_json_file FileContent.corrupt ([] : List String) = [] ∧
    Dispatch.preAlert (pre_alert_id sampleEvent) ∈
      (processOne 480 (fun _ => []) (load_json_file FileContent.corrupt []) []
        sampleEvent).2 :=
  ⟨(c9_corrupt_ledger_fails_open ([] : List String)).2.1,
   (c9_corrupt_ledger_fails_open ([] : List String)).2.2 480 (fun _ => []) [] sampleEvent
     (by decide) (by decide)⟩

/-! Claim C10. -/

/-- C10: in a dormant cycle (no event passes the loop's active-window
test) the loop iterates over the initial empty `live_data` list rather
than the cached schedule, so nothing is dispatched and the ledger file is
unchanged — even though the cached schedule may hold an event inside its
pre-alert window. -/
theorem c10_dormant_processes_nothing (st : BotState) (c : CycleSpec)
    (hdate : st.lastFetchDate = some (dateOf c.now))
    (hdormant : is_active_window c.now st.scheduleFile = false) :
    cycleEvents c st.scheduleFile = [] ∧
    (runCycle st c).dispatched = [] ∧
    (runCycle st c).state.stateFile = st.stateFile := by
  have he : effectiveSchedule st c = some st.scheduleFile := by
    unfold effectiveSchedule
    rw [if_neg (by simp [hdate])]
  have hevts : cycleEvents c st.scheduleFile = [] := by
    unfold cycleEvents
    rw [hdormant]
    simp
  rw [runCycle_run he, hevts]
  exact ⟨rfl, rfl, rfl⟩

/-- A dormant-cycle environment: the sample event is 4 minutes out, so
its pre-alert window is open but the loop's active-window test fails. -/
def dormantCycle : CycleSpec :=
  { restart := false, now := 360, dailyFetch := none, burstFetch := none,
    enrich := fun _ => [] }

/-- C10 witness: with the pre-alert window open (4 minutes to the event)
the dormant cycle still dispatches nothing and leaves the ledger file
untouched. -/
theorem c10_witness :
    preWindow 360 sampleEvent = true ∧
    pre_alert_id sampleEvent ∉ steadyState.stateFile ∧
    (runCycle steadyState dormantCycle).dispatched = [] ∧
    (runCycle steadyState dormantCycle).state.stateFile = steadyState.stateFile :=
  ⟨by decide, by decide,
   (c10_dormant_processes_nothing steadyState dormantCycle (by decide) (by decide)).2.1,
   (c10_dormant_processes_nothing steadyState dormantCycle (by decide) (by decide)).2.2⟩

end MarketIntelBot
